import Mathlib

/-!
# Verification of the `/upload-batch` pipeline of `upload-to-s3-backend`

Shallow embedding of `src/server.js` (the batch upload endpoint and its
helper functions) and proofs about the frozen claims of the specification.

JavaScript dynamic values are modelled by `JSValue` (arrays and objects use
the mutually inductive `JSList` / `JSFields` spines so that all functions are
structurally recursive and kernel-evaluable); the handler body is translated
branch by branch.  Wall-clock time (`Date.now()`) and the S3 backend are
external effects: the elapsed duration is a parameter, and the backend is an
oracle `Nat → PutCall → Option String` giving, for each item index and
attempted put, either success (`none`) or the thrown error's message
(`some msg`).
-/

set_option maxRecDepth 8192

namespace UploadBackend

mutual

/-- Model of a JavaScript/JSON value as seen by the Express handler. -/
inductive JSValue where
  | null
  | undefined
  | boolean (b : Bool)
  | number (n : Int)
  | str (s : String)
  | arr (elems : JSList)
  | obj (fields : JSFields)
deriving DecidableEq

/-- Spine of a JavaScript array value. -/
inductive JSList where
  | nil
  | cons (head : JSValue) (tail : JSList)
deriving DecidableEq

/-- Spine of a JavaScript object value: ordered key/value fields. -/
inductive JSFields where
  | nil
  | cons (key : String) (value : JSValue) (tail : JSFields)
deriving DecidableEq

end

/-- Convert an array spine to a Lean list of its elements. -/
def JSList.toList : JSList → List JSValue
  | .nil => []
  | .cons x rest => x :: rest.toList

/-- Build an array spine from a Lean list (for concrete inputs). -/
def JSList.ofList : List JSValue → JSList
  | [] => .nil
  | x :: rest => .cons x (JSList.ofList rest)

/-- First binding of a key in an object's fields. -/
def JSFields.lookupKey : JSFields → String → Option JSValue
  | .nil, _ => none
  | .cons k v rest, key => if k = key then some v else rest.lookupKey key

/-- Build object fields from a Lean association list (for concrete inputs). -/
def JSFields.ofList : List (String × JSValue) → JSFields
  | [] => .nil
  | (k, v) :: rest => .cons k v (JSFields.ofList rest)

/-- JavaScript truthiness (`!x` is `!jsTruthy x`).  `NaN` is not modelled. -/
def jsTruthy : JSValue → Bool
  | .null => false
  | .undefined => false
  | .boolean b => b
  | .number n => n != 0
  | .str s => s != ""
  | .arr _ => true
  | .obj _ => true

/-- JavaScript `typeof` (note `typeof null === "object"` and arrays are objects). -/
def jsTypeof : JSValue → String
  | .null => "object"
  | .undefined => "undefined"
  | .boolean _ => "boolean"
  | .number _ => "number"
  | .str _ => "string"
  | .arr _ => "object"
  | .obj _ => "object"

/-- Property access `v[key]`: lookup in an object, `undefined` otherwise
(the handler only reads the fixed keys `mobileNumber`, `inspectionUuid`,
`prdpUuid`, `journeyType`, `screenshots`, `filename`, `extension`,
`timestamp`, `image`, none of which exist on non-object values). -/
def getField (v : JSValue) (key : String) : JSValue :=
  match v with
  | .obj fields =>
    match fields.lookupKey key with
    | some w => w
    | none => .undefined
  | _ => .undefined

mutual

/-- JavaScript `String(v)` / template-literal coercion. -/
def jsToString : JSValue → String
  | .null => "null"
  | .undefined => "undefined"
  | .boolean b => if b then "true" else "false"
  | .number n => toString n
  | .str s => s
  | .obj _ => "[object Object]"
  | .arr xs => jsListToString xs
termination_by structural v => v

/-- `Array.prototype.toString`: elements joined by `","`, with `null` and
`undefined` elements contributing the empty string. -/
def jsListToString : JSList → String
  | .nil => ""
  | .cons .null .nil => ""
  | .cons .undefined .nil => ""
  | .cons x .nil => jsToString x
  | .cons .null rest => "," ++ jsListToString rest
  | .cons .undefined rest => "," ++ jsListToString rest
  | .cons x rest => jsToString x ++ "," ++ jsListToString rest
termination_by structural l => l

end

/-- `DEFAULT_IMAGE_EXTENSION` from `server.js`. -/
def DEFAULT_IMAGE_EXTENSION : String := "jpg"

/-! ## `sanitizeMobileNumber` (server.js lines 57-63) -/

/-- Characters kept unchanged by `mobileNumber.replace(/[^a-zA-Z0-9+]/g, "_")`. -/
def isMobileKeep (c : Char) : Bool :=
  (('a' ≤ c && c ≤ 'z') || ('A' ≤ c && c ≤ 'Z') || ('0' ≤ c && c ≤ '9') || c = '+')

/-- `mobileNumber.replace(/[^a-zA-Z0-9+]/g, "_")`. -/
def replaceBadChars (l : List Char) : List Char :=
  l.map (fun c => if isMobileKeep c then c else '_')

/-- `sanitized.replace(/_+/g, "_")`: collapse runs of underscores.  The flag
records whether the previously emitted character was an underscore of a run
still being collapsed. -/
def collapseUnd (seenUnd : Bool) : List Char → List Char
  | [] => []
  | c :: rest =>
    if c = '_' then
      if seenUnd then collapseUnd true rest
      else '_' :: collapseUnd true rest
    else c :: collapseUnd false rest

/-- Drop the trailing run of characters satisfying `p` (structural helper for
the `_+$` / trailing-trim halves of the JS regexes). -/
def dropTrailing (p : Char → Bool) : List Char → List Char
  | [] => []
  | c :: rest =>
    match dropTrailing p rest with
    | [] => if p c then [] else [c]
    | r => c :: r

/-- `sanitized.replace(/^_+|_+$/g, "")`. -/
def stripUnd (l : List Char) : List Char :=
  dropTrailing (fun c => c = '_') (l.dropWhile (fun c => c = '_'))

/-- Pipeline of the three `replace` calls on the character list. -/
def sanitizeMobileCore (l : List Char) : List Char :=
  stripUnd (collapseUnd false (replaceBadChars l))

/-- `sanitizeMobileNumber` from `server.js`: non-strings and falsy values map
to `"unknown"`, otherwise the three regex replacements run and an empty
result falls back to `"unknown"`. -/
def sanitizeMobileNumber (v : JSValue) : String :=
  match v with
  | .str s =>
    if s = "" then "unknown"
    else
      let cleaned := sanitizeMobileCore s.data
      if cleaned = [] then "unknown" else ⟨cleaned⟩
  | _ => "unknown"

/-! ## `sanitizeUuid` (server.js lines 69-72) -/

/-- Characters kept by `String(uuid).replace(/[^a-zA-Z0-9\-_ ]/g, "")`. -/
def isUuidKeep (c : Char) : Bool :=
  (('a' ≤ c && c ≤ 'z') || ('A' ≤ c && c ≤ 'Z') || ('0' ≤ c && c ≤ '9')
    || c = '-' || c = '_' || c = ' ')

/-- `.trim()` — after the filter only the space character can remain as
whitespace, so trimming spaces from both ends is exact. -/
def trimSpaces (l : List Char) : List Char :=
  dropTrailing (fun c => c = ' ') (l.dropWhile (fun c => c = ' '))

/-- `sanitizeUuid` from `server.js`: `null` for falsy input, otherwise the
string coercion is filtered and trimmed (possibly to the empty string). -/
def sanitizeUuid (v : JSValue) : Option String :=
  if jsTruthy v then
    some ⟨trimSpaces ((jsToString v).data.filter isUuidKeep)⟩
  else none

/-! ## `formatSizeKB`, `toFixed(2)` models -/

/-- `x.toFixed(2)` on a non-negative value given as `scaled` = round(100·x):
the printed decimal with exactly two fractional digits. -/
def toFixed2 (scaled : Nat) : String :=
  toString (scaled / 100) ++ "." ++
    (if scaled % 100 < 10 then "0" else "") ++ toString (scaled % 100)

/-- `formatSizeKB` from `server.js`: `(bytes / 1024).toFixed(2)`,
with round-to-nearest division modelling the floating-point rounding. -/
def formatSizeKB (bytes : Nat) : String :=
  toFixed2 ((bytes * 200 + 1024) / 2048)

/-- `(duration / count).toFixed(2)` for the `avgTimePerFile` field. -/
def avgTimeString (duration count : Nat) : String :=
  if count > 0 then toFixed2 ((duration * 200 + count) / (2 * count)) else "0.00"

/-! ## `getImageContentType` (server.js lines 84-94) -/

/-- `toLowerCase` of one character (ASCII; the extensions the table
distinguishes are all ASCII). -/
def asciiLower (c : Char) : Char :=
  if 'A' ≤ c && c ≤ 'Z' then Char.ofNat (c.toNat + 32) else c

/-- `ext.toLowerCase()`. -/
def jsToLowerCase (s : String) : String :=
  ⟨s.data.map asciiLower⟩

/-- The `contentTypes` object literal, as a lookup. -/
def contentTypesLookup (ext : String) : Option String :=
  if ext = "jpg" then some "image/jpeg"
  else if ext = "jpeg" then some "image/jpeg"
  else if ext = "png" then some "image/png"
  else if ext = "gif" then some "image/gif"
  else if ext = "webp" then some "image/webp"
  else none

/-- `getImageContentType` from `server.js`.  The argument is a JS value: the
function defaults falsy input to `"jpg"`, then calls `.toLowerCase()` — which
throws a `TypeError` (modelled by `.error`) when the defaulted value is not a
string — and finally resolves via the lookup with an `image/{ext}` fallback. -/
def getImageContentType (extension : JSValue) : Except String String :=
  let e := if jsTruthy extension then extension else .str DEFAULT_IMAGE_EXTENSION
  match e with
  | .str s =>
    let ext := jsToLowerCase s
    .ok ((contentTypesLookup ext).getD ("image/" ++ ext))
  | _ => .error "(intermediate value).toLowerCase is not a function"

/-! ## `validateScreenshot` (server.js lines 99-110) -/

/-- Result shape `{valid: bool, error?: string}` of `validateScreenshot`. -/
inductive ValidationResult where
  | ok
  | invalid (error : String)
deriving DecidableEq

/-- `screenshot && typeof screenshot === "object"`: a non-null object in JS
terms (arrays included); the source's guard `!screenshot || typeof screenshot
!== "object"` is its negation by De Morgan. -/
def isNonNullObject (v : JSValue) : Bool :=
  jsTruthy v && (jsTypeof v == "object")

/-- `field && typeof field === "string"`: a non-empty string; the source's
guards `!x || typeof x !== "string"` are its negation by De Morgan. -/
def isNonEmptyStr (v : JSValue) : Bool :=
  jsTruthy v && (jsTypeof v == "string")

/-- `validateScreenshot` from `server.js`: three checks in order, first
failure wins. -/
def validateScreenshot (screenshot : JSValue) (index : Nat) : ValidationResult :=
  if !isNonNullObject screenshot then
    .invalid ("Screenshot at index " ++ toString index ++ " is not an object")
  else if !isNonEmptyStr (getField screenshot "filename") then
    .invalid ("Screenshot at index " ++ toString index ++ " missing filename")
  else if !isNonEmptyStr (getField screenshot "image") then
    .invalid ("Screenshot at index " ++ toString index ++ " missing image data")
  else .ok

/-! ## `Buffer.from(image, "base64")` -/

/-- Value of one base64 alphabet character (standard and URL-safe); `none`
for characters Node's forgiving decoder skips (including `=` padding). -/
def base64CharValue (c : Char) : Option Nat :=
  if 'A' ≤ c && c ≤ 'Z' then some (c.toNat - 65)
  else if 'a' ≤ c && c ≤ 'z' then some (c.toNat - 97 + 26)
  else if '0' ≤ c && c ≤ '9' then some (c.toNat - 48 + 52)
  else if c = '+' || c = '-' then some 62
  else if c = '/' || c = '_' then some 63
  else none

/-- Groups of four 6-bit values to three bytes; a final partial group of two
or three values yields one or two bytes, a lone value is dropped. -/
def decodeBase64Groups : List Nat → List Nat
  | a :: b :: c :: d :: rest =>
    (a * 4 + b / 16) :: ((b % 16) * 16 + c / 4) :: ((c % 4) * 64 + d)
      :: decodeBase64Groups rest
  | [a, b, c] => [a * 4 + b / 16, (b % 16) * 16 + c / 4]
  | [a, b] => [a * 4 + b / 16]
  | _ => []

/-- `Buffer.from(s, "base64")` as a byte list: Node never throws for string
input; non-alphabet characters are ignored. -/
def decodeBase64 (s : String) : List Nat :=
  decodeBase64Groups (s.data.filterMap base64CharValue)

/-! ## The batch endpoint (server.js lines 145-335) -/

/-- One attempted `PutObjectCommand` sent to the S3 client. -/
structure PutCall where
  bucket : String
  key : String
  body : List Nat
  contentType : String
deriving DecidableEq

/-- One entry of `results.details`.  The `filename` field is a JS value
because the validation-failure branch stores `screenshot?.filename` verbatim,
which need not be a string. -/
structure Outcome where
  index : Nat
  filename : JSValue
  key : Option String := none
  status : String
  size : Option Nat := none
  sizeKB : Option String := none
  error : Option String := none
deriving DecidableEq

/-- The `results` accumulator serialized into the response body. -/
structure BatchResults where
  successful : Nat
  failed : Nat
  total : Nat
  details : List Outcome
  userFolder : String
  mobileNumber : String
  inspectionUuid : String
  prdpUuid : Option String
  journeyType : JSValue
deriving DecidableEq

/-- The JSON response of the endpoint: either `sendErrorResponse`'s
`{error, details?}` shape or the spread report with `message`, `bucket`,
`duration` and `avgTimePerFile`. -/
inductive BatchResponse where
  | errorResp (status : Nat) (error : String) (details : Option String)
  | reportResp (status : Nat) (message : String) (bucket : String)
      (results : BatchResults) (duration : Nat) (avgTimePerFile : String)
deriving DecidableEq

/-- Response plus the sequence of S3 put calls attempted while computing it. -/
structure BatchOutput where
  response : BatchResponse
  putCalls : List PutCall
deriving DecidableEq

/-- `journeyType === JOURNEY_TYPES.PRE_INSPECTION_PRDP` (strict equality). -/
def isPrdpJourney (journeyType : JSValue) : Bool :=
  match journeyType with
  | .str s => s = "PRE_INSPECTION_PRDP"
  | _ => false

/-- Body of one iteration of the batch loop (server.js lines 242-309) for a
screenshot that survived the destructuring on line 243 (i.e. is neither
`null` nor `undefined`).  Returns the outcome pushed onto `results.details`
together with the list (empty or singleton) of S3 puts attempted. -/
def processItemBody (s3 : Nat → PutCall → Option String) (bucket folderPath : String)
    (i : Nat) (screenshot : JSValue) : Outcome × List PutCall :=
  let filename := getField screenshot "filename"
  let extension := getField screenshot "extension"
  let image := getField screenshot "image"
  match validateScreenshot screenshot i with
  | .invalid err =>
    ({ index := i,
       filename := if jsTruthy filename then filename else .str "unknown",
       status := "failed", error := some err }, [])
  | .ok =>
    -- validation guarantees `filename` and `image` are non-empty strings
    let f := jsToString filename
    let bytes := decodeBase64 (jsToString image)
    if bytes.length = 0 then
      -- inner `throw new Error("Empty image data")` is caught by the inner
      -- catch and re-thrown as `Invalid base64 data: ${error.message}`
      ({ index := i, filename := .str f, status := "failed",
         error := some "Invalid base64 data: Empty image data" }, [])
    else
      let imageExtension := if jsTruthy extension then extension else .str DEFAULT_IMAGE_EXTENSION
      let key := folderPath ++ "/" ++ f ++ "." ++ jsToString imageExtension
      match getImageContentType imageExtension with
      | .error msg =>
        -- `.toLowerCase()` TypeError while building the PutObjectCommand:
        -- caught by the per-item catch before any network call
        ({ index := i, filename := .str f, status := "failed",
           error := some msg }, [])
      | .ok contentType =>
        let put : PutCall := { bucket := bucket, key := key, body := bytes,
                               contentType := contentType }
        -- the put is attempted in both branches: `await s3.send(...)` either
        -- resolves (success outcome) or rejects into the per-item catch
        let outcome : Outcome :=
          match s3 i put with
          | none =>
            { index := i, filename := .str (f ++ "." ++ jsToString imageExtension),
              key := some key, status := "success", size := some bytes.length,
              sizeKB := some (formatSizeKB bytes.length) }
          | some msg =>
            { index := i, filename := .str f, status := "failed",
              error := some msg }
        (outcome, [put])

/-- One iteration of the batch loop including the destructuring
`const { filename, extension, timestamp, image } = screenshot` on line 243,
which throws a `TypeError` out of the loop when the element is `null` or
`undefined` (the error is only caught by the handler's outermost catch). -/
def processItem (s3 : Nat → PutCall → Option String) (bucket folderPath : String)
    (i : Nat) (screenshot : JSValue) : Except String (Outcome × List PutCall) :=
  match screenshot with
  | .null =>
    .error "Cannot destructure property 'filename' of 'screenshot' as it is null."
  | .undefined =>
    .error "Cannot destructure property 'filename' of 'screenshot' as it is undefined."
  | x => .ok (processItemBody s3 bucket folderPath i x)

/-- Result of the `for` loop: either it ran to completion with the final
counters, details and puts, or an exception escaped at some iteration
(carrying the puts already made). -/
inductive LoopResult where
  | aborted (message : String) (putCalls : List PutCall)
  | finished (successful failed : Nat) (details : List Outcome) (putCalls : List PutCall)
deriving DecidableEq

/-- The batch `for` loop (server.js lines 241-310), starting at index `i`. -/
def runItems (s3 : Nat → PutCall → Option String) (bucket folderPath : String) :
    Nat → List JSValue → LoopResult
  | _, [] => .finished 0 0 [] []
  | i, x :: rest =>
    match processItem s3 bucket folderPath i x with
    | .error msg => .aborted msg []
    | .ok (outcome, puts) =>
      match runItems s3 bucket folderPath (i + 1) rest with
      | .aborted m ps => .aborted m (puts ++ ps)
      | .finished succ fail outs ps =>
        if outcome.status = "success" then
          .finished (succ + 1) fail (outcome :: outs) (puts ++ ps)
        else
          .finished succ (fail + 1) (outcome :: outs) (puts ++ ps)

/-- The child-folder selection (server.js lines 199-209): the sanitized PRDP
UUID wins exactly when the journey type is strictly `"PRE_INSPECTION_PRDP"`
and that token is truthy (non-null and non-empty). -/
def childFolderOf (journeyType : JSValue) (sanitizedPrdpUuid : Option String)
    (insp : String) : String :=
  match sanitizedPrdpUuid with
  | some p => if isPrdpJourney journeyType && p ≠ "" then p else insp
  | none => insp

/-- Server.js lines 198-330: everything after the envelope checks passed,
given the already-extracted screenshot list and the non-empty sanitized
inspection UUID.  (The sanitized values are pure, so recomputing them here
is equivalent to the source's computing them once before the check.) -/
def processValidBatch (s3 : Nat → PutCall → Option String) (bucket : String)
    (duration : Nat) (body : JSValue) (screenshots : List JSValue)
    (insp : String) : BatchOutput :=
  let sanitizedMobileNumber := sanitizeMobileNumber (getField body "mobileNumber")
  let sanitizedPrdpUuid := sanitizeUuid (getField body "prdpUuid")
  let journeyType := getField body "journeyType"
  let childFolderUuid := childFolderOf journeyType sanitizedPrdpUuid insp
  let folderPath := sanitizedMobileNumber ++ "/" ++ insp ++ "/" ++ childFolderUuid
  match runItems s3 bucket folderPath 0 screenshots with
  | .aborted msg puts =>
    { response := .errorResp 500 "Batch upload failed" (some msg),
      putCalls := puts }
  | .finished succ fail outs puts =>
    let results : BatchResults :=
      { successful := succ, failed := fail, total := screenshots.length,
        details := outs, userFolder := folderPath,
        mobileNumber := sanitizedMobileNumber, inspectionUuid := insp,
        prdpUuid := (match sanitizedPrdpUuid with
          | some p => if p = "" then none else some p
          | none => none),
        journeyType := if jsTruthy journeyType then journeyType else .null }
    let statusCode := if succ > 0 then 200 else 500
    { response := .reportResp statusCode
        ("Batch upload: " ++ toString succ ++ "/" ++ toString screenshots.length
          ++ " successful")
        bucket results duration (avgTimeString duration screenshots.length),
      putCalls := puts }

/-- Server.js lines 163-330 for a body whose destructuring succeeded:
envelope validation, then the valid-batch continuation. -/
def processBatchBody (s3 : Nat → PutCall → Option String) (bucket : String)
    (duration : Nat) (body : JSValue) : BatchOutput :=
  match getField body "screenshots" with
  | .arr scr =>
    let screenshots := scr.toList
    if screenshots.length = 0 then
      { response := .errorResp 400 "Missing or invalid screenshots array" none,
        putCalls := [] }
    else if screenshots.length > 100 then
      { response := .errorResp 400 "Batch size exceeds maximum of 100 files" none,
        putCalls := [] }
    else
      match sanitizeUuid (getField body "inspectionUuid") with
      | none =>
        { response := .errorResp 400 "Inspection UUID is required" none, putCalls := [] }
      | some insp =>
        if insp = "" then
          { response := .errorResp 400 "Inspection UUID is required" none, putCalls := [] }
        else processValidBatch s3 bucket duration body screenshots insp
  | _ =>
    { response := .errorResp 400 "Missing or invalid screenshots array" none,
      putCalls := [] }

/-- The whole `POST /upload-batch` handler.  `s3` is the backend oracle,
`bucket` the configured bucket name, `duration` the elapsed milliseconds
measured by the two `Date.now()` calls, and `body` the parsed JSON request
body.  Returns the HTTP response together with all attempted S3 puts.
A `null`/`undefined` body makes the destructuring on line 147 throw into
the outermost catch. -/
def processBatch (s3 : Nat → PutCall → Option String) (bucket : String)
    (duration : Nat) (body : JSValue) : BatchOutput :=
  match body with
  | .null =>
    { response := .errorResp 500 "Batch upload failed"
        (some "Cannot destructure property 'mobileNumber' of 'req.body' as it is null."),
      putCalls := [] }
  | .undefined =>
    { response := .errorResp 500 "Batch upload failed"
        (some "Cannot destructure property 'mobileNumber' of 'req.body' as it is undefined."),
      putCalls := [] }
  | body => processBatchBody s3 bucket duration body

/-! ## Lemmas on the mobile-number sanitizer -/

/-- Character set `[a-zA-Z0-9+_]` that §4.1 of the spec promises for the
sanitized mobile token. -/
def isMobileOut (c : Char) : Bool :=
  isMobileKeep c || c = '_'

/-- No two adjacent underscores. -/
def NoRun (l : List Char) : Prop :=
  l.Chain' (fun a b => ¬(a = '_' ∧ b = '_'))

theorem mem_replaceBadChars {c : Char} {l : List Char} (h : c ∈ replaceBadChars l) :
    isMobileOut c = true := by
  rcases List.mem_map.mp h with ⟨d, _, hd⟩
  by_cases hk : isMobileKeep d
  · simp only [replaceBadChars, hk, if_true] at hd
    subst hd
    simp [isMobileOut, hk]
  · simp only [replaceBadChars, hk, if_false] at hd
    subst hd
    simp [isMobileOut]

theorem replaceBadChars_eq_self {l : List Char} (h : ∀ c ∈ l, isMobileOut c = true) :
    replaceBadChars l = l := by
  induction l with
  | nil => rfl
  | cons c rest ih =>
    have hc := h c (List.mem_cons_self c rest)
    have hrest := ih (fun d hd => h d (List.mem_cons_of_mem c hd))
    simp only [replaceBadChars, List.map_cons] at *
    by_cases hk : isMobileKeep c
    · simp [hk, hrest]
    · have : c = '_' := by
        simp [isMobileOut, hk] at hc
        exact hc
      simp [hk, hrest, this]

theorem mem_collapseUnd {c : Char} : ∀ {b : Bool} {l : List Char},
    c ∈ collapseUnd b l → c ∈ l := by
  intro b l
  induction l generalizing b with
  | nil => intro h; simp [collapseUnd] at h
  | cons d rest ih =>
    intro h
    by_cases hd : d = '_'
    · subst hd
      cases b with
      | true =>
        simp only [collapseUnd, if_pos rfl] at h
        exact List.mem_cons_of_mem _ (ih h)
      | false =>
        simp only [collapseUnd, if_pos rfl] at h
        rcases List.mem_cons.mp h with h | h
        · exact h ▸ List.mem_cons_self _ _
        · exact List.mem_cons_of_mem _ (ih h)
    · simp only [collapseUnd, if_neg hd] at h
      rcases List.mem_cons.mp h with h | h
      · exact h ▸ List.mem_cons_self _ _
      · exact List.mem_cons_of_mem _ (ih h)

theorem collapseUnd_spec : ∀ l : List Char,
    NoRun (collapseUnd false l) ∧ NoRun (collapseUnd true l) ∧
      ∀ c ∈ (collapseUnd true l).head?, c ≠ '_' := by
  intro l
  induction l with
  | nil => refine ⟨List.chain'_nil, List.chain'_nil, ?_⟩; simp [collapseUnd]
  | cons d rest ih =>
    obtain ⟨ihF, ihT, ihH⟩ := ih
    by_cases hd : d = '_'
    · subst hd
      refine ⟨?_, ?_, ?_⟩
      · simp only [collapseUnd, if_pos rfl]
        exact List.chain'_cons'.mpr ⟨fun y hy => fun hcon => ihH y hy hcon.2, ihT⟩
      · simp only [collapseUnd, if_pos rfl]
        exact ihT
      · simp only [collapseUnd, if_pos rfl]
        exact ihH
    · refine ⟨?_, ?_, ?_⟩
      · simp only [collapseUnd, if_neg hd]
        exact List.chain'_cons'.mpr ⟨fun y _ => fun hcon => hd hcon.1, ihF⟩
      · simp only [collapseUnd, if_neg hd]
        exact List.chain'_cons'.mpr ⟨fun y _ => fun hcon => hd hcon.1, ihF⟩
      · simp only [collapseUnd, if_neg hd, List.head?_cons]
        intro c hc
        cases hc
        exact hd

theorem collapseUnd_eq_self : ∀ l : List Char, NoRun l →
    collapseUnd false l = l ∧
      ((∀ c ∈ l.head?, c ≠ '_') → collapseUnd true l = l) := by
  intro l
  induction l with
  | nil => exact fun _ => ⟨rfl, fun _ => rfl⟩
  | cons d rest ih =>
    intro h
    obtain ⟨hhead, hrest⟩ := List.chain'_cons'.mp h
    obtain ⟨ihF, ihT⟩ := ih hrest
    by_cases hd : d = '_'
    · subst hd
      have htail : collapseUnd true rest = rest :=
        ihT (fun c hc => fun hceq => hhead c hc ⟨rfl, hceq⟩)
      constructor
      · simp [collapseUnd, htail]
      · intro hh
        exact absurd rfl (hh '_' (by simp))
    · constructor
      · simp only [collapseUnd, if_neg hd, ihF]
      · intro _
        simp only [collapseUnd, if_neg hd, ihF]

theorem head?_dropWhile {p : Char → Bool} : ∀ {l : List Char},
    ∀ c ∈ (l.dropWhile p).head?, p c = false := by
  intro l
  induction l with
  | nil => intro c hc; simp at hc
  | cons d rest ih =>
    intro c hc
    by_cases hd : p d
    · rw [List.dropWhile_cons_of_pos hd] at hc
      exact ih c hc
    · rw [List.dropWhile_cons_of_neg hd] at hc
      simp only [List.head?_cons, Option.mem_def, Option.some.injEq] at hc
      subst hc
      exact Bool.eq_false_iff.mpr hd

theorem dropWhile_eq_self {p : Char → Bool} {l : List Char}
    (h : ∀ c ∈ l.head?, p c = false) : l.dropWhile p = l := by
  cases l with
  | nil => rfl
  | cons d rest =>
    have : p d = false := h d (by simp)
    rw [List.dropWhile_cons_of_neg (by simp [this])]

theorem dropTrailing_isPrefix (p : Char → Bool) : ∀ l : List Char,
    dropTrailing p l <+: l := by
  intro l
  induction l with
  | nil => exact List.prefix_refl []
  | cons d rest ih =>
    simp only [dropTrailing]
    cases h : dropTrailing p rest with
    | nil =>
      by_cases hd : p d
      · simp only [if_pos hd]
        exact List.nil_prefix
      · simp only [if_neg hd]
        exact ⟨rest, rfl⟩
    | cons e r =>
      rw [h] at ih
      exact List.cons_prefix_cons.mpr ⟨rfl, ih⟩

theorem getLast?_dropTrailing (p : Char → Bool) : ∀ l : List Char,
    ∀ c ∈ (dropTrailing p l).getLast?, p c = false := by
  intro l
  induction l with
  | nil => intro c hc; simp [dropTrailing] at hc
  | cons d rest ih =>
    intro c hc
    simp only [dropTrailing] at hc
    cases h : dropTrailing p rest with
    | nil =>
      rw [h] at hc
      by_cases hd : p d
      · simp [if_pos hd] at hc
      · simp only [if_neg hd, List.getLast?_singleton, Option.mem_def,
          Option.some.injEq] at hc
        subst hc
        exact Bool.eq_false_iff.mpr hd
    | cons e r =>
      rw [h, List.getLast?_cons_cons] at hc
      rw [← h] at hc
      exact ih c hc

theorem dropTrailing_eq_self {p : Char → Bool} : ∀ {l : List Char},
    (∀ c ∈ l.getLast?, p c = false) → dropTrailing p l = l := by
  intro l
  induction l with
  | nil => intro _; rfl
  | cons d rest ih =>
    intro h
    cases hr : rest with
    | nil =>
      have : p d = false := by
        apply h
        simp [hr]
      simp [dropTrailing, hr, this]
    | cons e r =>
      subst hr
      have htail : dropTrailing p (e :: r) = e :: r := by
        apply ih
        intro c hc
        apply h
        rw [List.getLast?_cons_cons]
        exact hc
      show (match dropTrailing p (e :: r) with
        | [] => if p d = true then [] else [d]
        | r2 => d :: r2) = d :: e :: r
      rw [htail]

theorem stripUnd_head : ∀ {l : List Char}, ∀ c ∈ (stripUnd l).head?, c ≠ '_' := by
  intro l c hc
  have hpre := dropTrailing_isPrefix (fun c => c = '_') (l.dropWhile (fun c => c = '_'))
  have : c ∈ (l.dropWhile (fun c => c = '_')).head? := by
    cases hd : dropTrailing (fun c => c = '_') (l.dropWhile (fun c => c = '_')) with
    | nil => rw [stripUnd, hd] at hc; simp at hc
    | cons e r =>
      rw [stripUnd, hd] at hc
      simp only [List.head?_cons, Option.mem_def, Option.some.injEq] at hc
      subst hc
      rw [hd] at hpre
      rcases hpre with ⟨t, ht⟩
      rw [← ht]
      simp
  have := head?_dropWhile c this
  simpa using this

theorem stripUnd_getLast : ∀ {l : List Char}, ∀ c ∈ (stripUnd l).getLast?, c ≠ '_' := by
  intro l c hc
  have := getLast?_dropTrailing (fun c => c = '_') (l.dropWhile (fun c => c = '_')) c hc
  simpa using this

theorem stripUnd_noRun {l : List Char} (h : NoRun l) : NoRun (stripUnd l) := by
  have h1 : NoRun (l.dropWhile (fun c => c = '_')) :=
    h.suffix (List.dropWhile_suffix _)
  exact h1.prefix (dropTrailing_isPrefix _ _)

theorem mem_stripUnd {c : Char} {l : List Char} (h : c ∈ stripUnd l) : c ∈ l := by
  have h1 := (dropTrailing_isPrefix (fun c => c = '_')
    (l.dropWhile (fun c => c = '_'))).sublist.mem h
  exact (List.dropWhile_suffix _).sublist.mem h1

theorem stripUnd_eq_self {l : List Char} (h1 : ∀ c ∈ l.head?, c ≠ '_')
    (h2 : ∀ c ∈ l.getLast?, c ≠ '_') : stripUnd l = l := by
  rw [stripUnd, dropWhile_eq_self (by intro c hc; simpa using h1 c hc),
    dropTrailing_eq_self (by intro c hc; simpa using h2 c hc)]

/-! ### Characterization of `sanitizeMobileCore` output and idempotence -/

theorem sanitizeMobileCore_chars {c : Char} {l : List Char}
    (h : c ∈ sanitizeMobileCore l) : isMobileOut c = true :=
  mem_replaceBadChars (mem_collapseUnd (mem_stripUnd h))

theorem sanitizeMobileCore_noRun (l : List Char) : NoRun (sanitizeMobileCore l) :=
  stripUnd_noRun (collapseUnd_spec (replaceBadChars l)).1

theorem sanitizeMobileCore_head (l : List Char) :
    ∀ c ∈ (sanitizeMobileCore l).head?, c ≠ '_' :=
  stripUnd_head

theorem sanitizeMobileCore_getLast (l : List Char) :
    ∀ c ∈ (sanitizeMobileCore l).getLast?, c ≠ '_' :=
  stripUnd_getLast

theorem sanitizeMobileCore_eq_self {l : List Char}
    (hchars : ∀ c ∈ l, isMobileOut c = true) (hrun : NoRun l)
    (hhead : ∀ c ∈ l.head?, c ≠ '_') (hlast : ∀ c ∈ l.getLast?, c ≠ '_') :
    sanitizeMobileCore l = l := by
  rw [sanitizeMobileCore, replaceBadChars_eq_self hchars,
    (collapseUnd_eq_self l hrun).1, stripUnd_eq_self hhead hlast]

theorem sanitizeMobileNumber_str (s : String) :
    sanitizeMobileNumber (.str s) =
      if s = "" then "unknown"
      else if sanitizeMobileCore s.data = [] then "unknown"
      else ⟨sanitizeMobileCore s.data⟩ := rfl

theorem sanitizeMobileNumber_ne_empty (v : JSValue) : sanitizeMobileNumber v ≠ "" := by
  cases v with
  | str s =>
    rw [sanitizeMobileNumber_str]
    by_cases h0 : s = ""
    · simp [h0]
    · rw [if_neg h0]
      by_cases hcl : sanitizeMobileCore s.data = []
      · simp [hcl]
      · rw [if_neg hcl]
        intro h
        exact hcl (congrArg String.data h)
  | null => simp [sanitizeMobileNumber]
  | undefined => simp [sanitizeMobileNumber]
  | boolean b => simp [sanitizeMobileNumber]
  | number n => simp [sanitizeMobileNumber]
  | arr xs => simp [sanitizeMobileNumber]
  | obj fs => simp [sanitizeMobileNumber]

theorem unknown_chars : ∀ c ∈ ("unknown" : String).data, isMobileOut c = true := by
  decide

theorem sanitizeMobileNumber_chars (v : JSValue) :
    ∀ c ∈ (sanitizeMobileNumber v).data, isMobileOut c = true := by
  cases v with
  | str s =>
    rw [sanitizeMobileNumber_str]
    by_cases h0 : s = ""
    · simpa [h0] using unknown_chars
    · rw [if_neg h0]
      by_cases hcl : sanitizeMobileCore s.data = []
      · simpa [hcl] using unknown_chars
      · rw [if_neg hcl]
        exact fun c hc => sanitizeMobileCore_chars hc
  | null => exact unknown_chars
  | undefined => exact unknown_chars
  | boolean b => exact unknown_chars
  | number n => exact unknown_chars
  | arr xs => exact unknown_chars
  | obj fs => exact unknown_chars

theorem sanitizeMobileNumber_of_not_string (v : JSValue)
    (h : jsTruthy v = false ∨ jsTypeof v ≠ "string") :
    sanitizeMobileNumber v = "unknown" := by
  cases v with
  | str s =>
    rcases h with h | h
    · have : s = "" := by simpa [jsTruthy] using h
      simp [sanitizeMobileNumber_str, this]
    · exact absurd rfl h
  | null => rfl
  | undefined => rfl
  | boolean b => rfl
  | number n => rfl
  | arr xs => rfl
  | obj fs => rfl

theorem sanitizeMobileNumber_of_empty_core {s : String}
    (h : sanitizeMobileCore s.data = []) :
    sanitizeMobileNumber (.str s) = "unknown" := by
  rw [sanitizeMobileNumber_str]
  by_cases h0 : s = ""
  · simp [h0]
  · rw [if_neg h0, if_pos h]

theorem sanitizeMobileNumber_idem (s : String) :
    sanitizeMobileNumber (.str (sanitizeMobileNumber (.str s))) =
      sanitizeMobileNumber (.str s) := by
  by_cases h0 : s = ""
  · have hr : sanitizeMobileNumber (.str s) = "unknown" := by
      rw [sanitizeMobileNumber_str, if_pos h0]
    rw [hr]
    decide
  · by_cases hcl : sanitizeMobileCore s.data = []
    · have hr : sanitizeMobileNumber (.str s) = "unknown" := by
        rw [sanitizeMobileNumber_str, if_neg h0, if_pos hcl]
      rw [hr]
      decide
    · have hr : sanitizeMobileNumber (.str s) = ⟨sanitizeMobileCore s.data⟩ := by
        rw [sanitizeMobileNumber_str, if_neg h0, if_neg hcl]
      rw [hr]
      have hne : (⟨sanitizeMobileCore s.data⟩ : String) ≠ "" :=
        fun h => hcl (congrArg String.data h)
      have hfix : sanitizeMobileCore (⟨sanitizeMobileCore s.data⟩ : String).data
          = sanitizeMobileCore s.data := by
        show sanitizeMobileCore (sanitizeMobileCore s.data) = sanitizeMobileCore s.data
        exact sanitizeMobileCore_eq_self (fun c hc => sanitizeMobileCore_chars hc)
          (sanitizeMobileCore_noRun s.data) (sanitizeMobileCore_head s.data)
          (sanitizeMobileCore_getLast s.data)
      rw [sanitizeMobileNumber_str, if_neg hne, hfix, if_neg hcl]

/-! ## Lemmas on the batch loop -/

/-- The loop as a per-item map: what each iteration contributes, starting at
index `i`.  Used to state that one item's processing depends only on its own
element. -/
def runItemsSpec (s3 : Nat → PutCall → Option String) (bucket folderPath : String) :
    Nat → List JSValue → List (Outcome × List PutCall)
  | _, [] => []
  | i, x :: rest =>
    processItemBody s3 bucket folderPath i x
      :: runItemsSpec s3 bucket folderPath (i + 1) rest

/-- Whether an iteration's outcome took the success branch. -/
def isSuccessPiece (pr : Outcome × List PutCall) : Bool :=
  pr.1.status == "success"

theorem processItem_ok (s3 : Nat → PutCall → Option String) (bucket folderPath : String)
    (i : Nat) {x : JSValue} (h1 : x ≠ .null) (h2 : x ≠ .undefined) :
    processItem s3 bucket folderPath i x
      = .ok (processItemBody s3 bucket folderPath i x) := by
  cases x <;> first | rfl | exact absurd rfl h1 | exact absurd rfl h2

theorem processItemBody_index (s3 : Nat → PutCall → Option String)
    (bucket folderPath : String) (i : Nat) (x : JSValue) :
    (processItemBody s3 bucket folderPath i x).1.index = i := by
  unfold processItemBody
  dsimp only
  repeat' split
  all_goals rfl

theorem processItemBody_status (s3 : Nat → PutCall → Option String)
    (bucket folderPath : String) (i : Nat) (x : JSValue) :
    (processItemBody s3 bucket folderPath i x).1.status = "success"
      ∨ (processItemBody s3 bucket folderPath i x).1.status = "failed" := by
  unfold processItemBody
  dsimp only
  repeat' split
  all_goals simp

theorem runItemsSpec_length (s3 : Nat → PutCall → Option String)
    (bucket folderPath : String) :
    ∀ (items : List JSValue) (i : Nat),
      (runItemsSpec s3 bucket folderPath i items).length = items.length := by
  intro items
  induction items with
  | nil => intro i; rfl
  | cons x rest ih =>
    intro i
    simp only [runItemsSpec, List.length_cons, ih]

theorem runItemsSpec_get? (s3 : Nat → PutCall → Option String)
    (bucket folderPath : String) :
    ∀ (items : List JSValue) (i j : Nat) (x : JSValue), items.get? j = some x →
      (runItemsSpec s3 bucket folderPath i items).get? j
        = some (processItemBody s3 bucket folderPath (i + j) x) := by
  intro items
  induction items with
  | nil => intro i j x h; simp at h
  | cons y rest ih =>
    intro i j x h
    cases j with
    | zero =>
      simp only [List.get?_cons_zero, Option.some.injEq] at h
      subst h
      rfl
    | succ j =>
      simp only [List.get?_cons_succ] at h
      have := ih (i + 1) j x h
      simp only [runItemsSpec, List.get?_cons_succ, this]
      have harith : i + 1 + j = i + (j + 1) := by omega
      rw [harith]

theorem countP_success_split (l : List (Outcome × List PutCall)) :
    l.countP isSuccessPiece + l.countP (fun pr => !isSuccessPiece pr) = l.length := by
  induction l with
  | nil => rfl
  | cons a rest ih =>
    by_cases h : isSuccessPiece a
    · simp [List.countP_cons, h]
      omega
    · simp [List.countP_cons, h]
      omega

theorem runItems_eq_spec (s3 : Nat → PutCall → Option String)
    (bucket folderPath : String) :
    ∀ (items : List JSValue) (i : Nat),
      (∀ x ∈ items, x ≠ .null ∧ x ≠ .undefined) →
      runItems s3 bucket folderPath i items =
        .finished
          ((runItemsSpec s3 bucket folderPath i items).countP isSuccessPiece)
          ((runItemsSpec s3 bucket folderPath i items).countP (fun pr => !isSuccessPiece pr))
          ((runItemsSpec s3 bucket folderPath i items).map Prod.fst)
          (((runItemsSpec s3 bucket folderPath i items).map Prod.snd).flatten) := by
  intro items
  induction items with
  | nil => intro i _; rfl
  | cons x rest ih =>
    intro i hnn
    obtain ⟨hx1, hx2⟩ := hnn x (List.mem_cons_self x rest)
    have hrest := ih (i + 1) (fun y hy => hnn y (List.mem_cons_of_mem x hy))
    have hpi := processItem_ok s3 bucket folderPath i hx1 hx2
    rcases hpb : processItemBody s3 bucket folderPath i x with ⟨out, puts⟩
    rw [hpb] at hpi
    by_cases hst : out.status = "success"
    · simp only [runItems, hpi, hrest, runItemsSpec, hpb, List.countP_cons,
        List.map_cons, List.flatten_cons, isSuccessPiece, hst, if_pos hst]
      simp
    · simp only [runItems, hpi, hrest, runItemsSpec, hpb, List.countP_cons,
        List.map_cons, List.flatten_cons, isSuccessPiece, if_neg hst]
      have : (out.status == "success") = false := by
        simpa using hst
      simp [this]

/-! ## Lemmas on the batch handler -/

theorem processBatch_eq_body (s3 : Nat → PutCall → Option String) (bucket : String)
    (duration : Nat) {body : JSValue} (h1 : body ≠ .null) (h2 : body ≠ .undefined) :
    processBatch s3 bucket duration body = processBatchBody s3 bucket duration body := by
  cases body <;> first | rfl | exact absurd rfl h1 | exact absurd rfl h2

theorem processBatchBody_valid (s3 : Nat → PutCall → Option String) (bucket : String)
    (duration : Nat) {body : JSValue} {scr : JSList} {insp : String}
    (hscr : getField body "screenshots" = .arr scr)
    (h0 : scr.toList.length ≠ 0)
    (h100 : scr.toList.length ≤ 100)
    (hinsp : sanitizeUuid (getField body "inspectionUuid") = some insp)
    (hne : insp ≠ "") :
    processBatchBody s3 bucket duration body
      = processValidBatch s3 bucket duration body scr.toList insp := by
  unfold processBatchBody
  rw [hscr]
  dsimp only
  rw [if_neg h0, if_neg (by omega : ¬scr.toList.length > 100), hinsp]
  dsimp only
  rw [if_neg hne]

/-- The folder path computed once per valid batch. -/
def folderPathOf (body : JSValue) (insp : String) : String :=
  sanitizeMobileNumber (getField body "mobileNumber") ++ "/" ++ insp ++ "/"
    ++ childFolderOf (getField body "journeyType") (sanitizeUuid (getField body "prdpUuid")) insp

/-- The complete report of a valid batch all of whose elements survive the
loop's destructuring, phrased item by item via `runItemsSpec`. -/
theorem processValidBatch_spec (s3 : Nat → PutCall → Option String) (bucket : String)
    (duration : Nat) (body : JSValue) (screenshots : List JSValue) (insp : String)
    (hnn : ∀ x ∈ screenshots, x ≠ .null ∧ x ≠ .undefined) :
    processValidBatch s3 bucket duration body screenshots insp =
      { response := .reportResp
          (if (runItemsSpec s3 bucket (folderPathOf body insp) 0 screenshots).countP
              isSuccessPiece > 0 then 200 else 500)
          ("Batch upload: "
            ++ toString ((runItemsSpec s3 bucket (folderPathOf body insp) 0 screenshots).countP
                isSuccessPiece)
            ++ "/" ++ toString screenshots.length ++ " successful")
          bucket
          { successful := (runItemsSpec s3 bucket (folderPathOf body insp) 0 screenshots).countP
              isSuccessPiece,
            failed := (runItemsSpec s3 bucket (folderPathOf body insp) 0 screenshots).countP
              (fun pr => !isSuccessPiece pr),
            total := screenshots.length,
            details := (runItemsSpec s3 bucket (folderPathOf body insp) 0 screenshots).map Prod.fst,
            userFolder := folderPathOf body insp,
            mobileNumber := sanitizeMobileNumber (getField body "mobileNumber"),
            inspectionUuid := insp,
            prdpUuid := (match sanitizeUuid (getField body "prdpUuid") with
              | some p => if p = "" then none else some p
              | none => none),
            journeyType := if jsTruthy (getField body "journeyType") then
                getField body "journeyType" else .null }
          duration (avgTimeString duration screenshots.length),
        putCalls := ((runItemsSpec s3 bucket (folderPathOf body insp) 0 screenshots).map
          Prod.snd).flatten } := by
  unfold processValidBatch
  dsimp only
  rw [show (sanitizeMobileNumber (getField body "mobileNumber") ++ "/" ++ insp ++ "/"
      ++ childFolderOf (getField body "journeyType")
        (sanitizeUuid (getField body "prdpUuid")) insp) = folderPathOf body insp from rfl]
  rw [runItems_eq_spec s3 bucket (folderPathOf body insp) screenshots 0 hnn]

/-! ## Lemmas on the item validator and one item's processing -/

theorem isNonNullObject_iff (v : JSValue) :
    isNonNullObject v = true ↔ (jsTypeof v = "object" ∧ v ≠ .null) := by
  cases v <;> simp [isNonNullObject, jsTruthy, jsTypeof]

theorem isNonEmptyStr_iff (v : JSValue) :
    isNonEmptyStr v = true ↔ ∃ s, v = .str s ∧ s ≠ "" := by
  cases v <;> simp [isNonEmptyStr, jsTruthy, jsTypeof]

theorem validateScreenshot_ok {x : JSValue} (i : Nat)
    (hobj : jsTypeof x = "object") (hxn : x ≠ .null)
    {f : String} (hf : getField x "filename" = .str f) (hf0 : f ≠ "")
    {img : String} (hi : getField x "image" = .str img) (him0 : img ≠ "") :
    validateScreenshot x i = .ok := by
  have h1 : isNonNullObject x = true := (isNonNullObject_iff x).mpr ⟨hobj, hxn⟩
  have h2 : isNonEmptyStr (getField x "filename") = true :=
    (isNonEmptyStr_iff _).mpr ⟨f, hf, hf0⟩
  have h3 : isNonEmptyStr (getField x "image") = true :=
    (isNonEmptyStr_iff _).mpr ⟨img, hi, him0⟩
  simp [validateScreenshot, h1, h2, h3]

/-- An item whose image decodes to the empty payload: failed outcome with the
re-wrapped message, no put attempted. -/
theorem processItemBody_empty_decode (s3 : Nat → PutCall → Option String)
    (bucket folderPath : String) (i : Nat) {x : JSValue}
    (hobj : jsTypeof x = "object") (hxn : x ≠ .null)
    {f : String} (hf : getField x "filename" = .str f) (hf0 : f ≠ "")
    {img : String} (hi : getField x "image" = .str img) (him0 : img ≠ "")
    (hdec : decodeBase64 img = []) :
    processItemBody s3 bucket folderPath i x =
      ({ index := i, filename := .str f, status := "failed",
         error := some "Invalid base64 data: Empty image data" }, []) := by
  unfold processItemBody
  rw [validateScreenshot_ok i hobj hxn hf hf0 hi him0]
  dsimp only
  rw [hf, hi]
  show (if (decodeBase64 (jsToString (.str img))).length = 0 then _ else _) = _
  rw [show jsToString (.str img) = img from rfl, hdec]
  rfl

/-- `getImageContentType` on a non-empty extension string: lowercase, then
table lookup with `image/{ext}` fallback. -/
theorem getImageContentType_str {ext : String} (h : ext ≠ "") :
    getImageContentType (.str ext) =
      .ok ((contentTypesLookup (jsToLowerCase ext)).getD
        ("image/" ++ jsToLowerCase ext)) := by
  simp [getImageContentType, jsTruthy, h]

/-- An item that reaches the upload step with a truthy string extension:
exactly one put, whose key embeds folder path, filename and extension
verbatim. -/
theorem processItemBody_upload (s3 : Nat → PutCall → Option String)
    (bucket folderPath : String) (i : Nat) {x : JSValue}
    (hobj : jsTypeof x = "object") (hxn : x ≠ .null)
    {f : String} (hf : getField x "filename" = .str f) (hf0 : f ≠ "")
    {img : String} (hi : getField x "image" = .str img) (him0 : img ≠ "")
    (hdec : decodeBase64 img ≠ [])
    {ext : String} (hext : getField x "extension" = .str ext) (hext0 : ext ≠ "") :
    (processItemBody s3 bucket folderPath i x).2 =
      [{ bucket := bucket, key := folderPath ++ "/" ++ f ++ "." ++ ext,
         body := decodeBase64 img,
         contentType := (contentTypesLookup (jsToLowerCase ext)).getD
           ("image/" ++ jsToLowerCase ext) }] := by
  unfold processItemBody
  rw [validateScreenshot_ok i hobj hxn hf hf0 hi him0]
  dsimp only
  rw [hf, hi, hext]
  have he : (if jsTruthy (.str ext) = true then JSValue.str ext
      else JSValue.str DEFAULT_IMAGE_EXTENSION) = .str ext := by
    simp [jsTruthy, hext0]
  rw [show jsToString (.str img) = img from rfl,
    if_neg (by simpa [List.length_eq_zero] using hdec), he,
    getImageContentType_str hext0]
  rfl

/-- Same, with the `extension` field absent: the default `"jpg"` is used. -/
theorem processItemBody_upload_default (s3 : Nat → PutCall → Option String)
    (bucket folderPath : String) (i : Nat) {x : JSValue}
    (hobj : jsTypeof x = "object") (hxn : x ≠ .null)
    {f : String} (hf : getField x "filename" = .str f) (hf0 : f ≠ "")
    {img : String} (hi : getField x "image" = .str img) (him0 : img ≠ "")
    (hdec : decodeBase64 img ≠ [])
    (hext : getField x "extension" = .undefined) :
    (processItemBody s3 bucket folderPath i x).2 =
      [{ bucket := bucket, key := folderPath ++ "/" ++ f ++ "." ++ "jpg",
         body := decodeBase64 img, contentType := "image/jpeg" }] := by
  unfold processItemBody
  rw [validateScreenshot_ok i hobj hxn hf hf0 hi him0]
  dsimp only
  rw [hf, hi, hext]
  have he : (if jsTruthy JSValue.undefined = true then JSValue.undefined
      else JSValue.str DEFAULT_IMAGE_EXTENSION) = .str DEFAULT_IMAGE_EXTENSION := by
    simp [jsTruthy]
  rw [show jsToString (.str img) = img from rfl,
    if_neg (by simpa [List.length_eq_zero] using hdec), he,
    show getImageContentType (.str DEFAULT_IMAGE_EXTENSION)
      = Except.ok "image/jpeg" from rfl]
  rfl

theorem key_prefix_of (fp a b : String) :
    ∃ rest, fp ++ "/" ++ a ++ "." ++ b = fp ++ "/" ++ rest :=
  ⟨a ++ "." ++ b, by simp [String.append_assoc]⟩

/-- Every put an iteration attempts has the batch folder path as key prefix. -/
theorem processItemBody_put_keys (s3 : Nat → PutCall → Option String)
    (bucket folderPath : String) (i : Nat) (x : JSValue) :
    ∀ put ∈ (processItemBody s3 bucket folderPath i x).2,
      ∃ rest, put.key = folderPath ++ "/" ++ rest := by
  unfold processItemBody
  dsimp only
  repeat' split
  all_goals intro put hput
  all_goals simp only [List.mem_singleton, List.not_mem_nil] at hput
  all_goals subst hput
  all_goals exact key_prefix_of folderPath _ _

/-- Folder-path prefix for all puts of the whole loop. -/
theorem runItemsSpec_put_keys (s3 : Nat → PutCall → Option String)
    (bucket folderPath : String) :
    ∀ (items : List JSValue) (i : Nat),
      ∀ put ∈ ((runItemsSpec s3 bucket folderPath i items).map Prod.snd).flatten,
        ∃ rest, put.key = folderPath ++ "/" ++ rest := by
  intro items
  induction items with
  | nil => intro i put hput; simp [runItemsSpec] at hput
  | cons x rest ih =>
    intro i put hput
    simp only [runItemsSpec, List.map_cons, List.flatten_cons, List.mem_append] at hput
    rcases hput with hput | hput
    · exact processItemBody_put_keys s3 bucket folderPath i x put hput
    · exact ih (i + 1) put hput

/-! ## The claims -/

/-- The report carried by a response, when there is one. -/
def reportOf : BatchResponse → Option BatchResults
  | .reportResp _ _ _ r _ _ => some r
  | _ => none

theorem isPrdpJourney_iff (v : JSValue) :
    isPrdpJourney v = true ↔ v = .str "PRE_INSPECTION_PRDP" := by
  cases v <;> simp [isPrdpJourney]

/-- C1 (evaluation at the failing input): a batch whose envelope is valid
(one screenshot, within the size limit, sanitized inspection UUID `"abc"`)
but whose single element is `null` never reaches `validateScreenshot`: the
loop's destructuring `const { filename, ... } = screenshot` throws, the
outermost catch answers 500 `{error: "Batch upload failed"}`, and no report
with `successful + failed == total` and one outcome per element exists. -/
theorem claim1_null_screenshot_aborts_batch :
    sanitizeUuid (.str "abc") = some "abc" ∧
    processBatch (fun _ _ => none) "bkt" 0
      (.obj (.ofList [("inspectionUuid", .str "abc"),
        ("screenshots", .arr (.ofList [.null]))])) =
      { response := .errorResp 500 "Batch upload failed"
          (some "Cannot destructure property 'filename' of 'screenshot' as it is null."),
        putCalls := [] } := by decide

/-- C2 counterexample: this request passes envelope validation yet its
response body is `{error, details}` with no report at all (the `null`
element aborts the loop), contradicting "in both cases the body contains
the full report". -/
theorem claim2_counterexample :
    processBatch (fun _ _ => none) "bkt" 5
      (.obj (.ofList [("inspectionUuid", .str "xyz"),
        ("screenshots", .arr (.ofList [.null]))])) =
      { response := .errorResp 500 "Batch upload failed"
          (some "Cannot destructure property 'filename' of 'screenshot' as it is null."),
        putCalls := [] } ∧
    reportOf (processBatch (fun _ _ => none) "bkt" 5
      (.obj (.ofList [("inspectionUuid", .str "xyz"),
        ("screenshots", .arr (.ofList [.null]))]))).response = none := by decide

/-- C2 (amended): for every batch passing envelope validation *whose
elements are all non-null and non-undefined*, the response is the full
report — message, bucket, counts, outcome list, duration, avgTimePerFile —
with HTTP status 200 exactly when `successful > 0` and 500 otherwise. -/
theorem claim2_status_code_and_report (s3 : Nat → PutCall → Option String)
    (bucket : String) (duration : Nat) (body : JSValue) (scr : JSList)
    (insp : String)
    (h1 : body ≠ .null) (h2 : body ≠ .undefined)
    (hscr : getField body "screenshots" = .arr scr)
    (h0 : scr.toList.length ≠ 0) (h100 : scr.toList.length ≤ 100)
    (hinsp : sanitizeUuid (getField body "inspectionUuid") = some insp)
    (hne : insp ≠ "")
    (hnn : ∀ x ∈ scr.toList, x ≠ .null ∧ x ≠ .undefined) :
    ∃ results : BatchResults,
      (processBatch s3 bucket duration body).response =
        .reportResp (if results.successful > 0 then 200 else 500)
          ("Batch upload: " ++ toString results.successful ++ "/"
            ++ toString results.total ++ " successful")
          bucket results duration (avgTimeString duration scr.toList.length) ∧
      results.successful + results.failed = results.total ∧
      results.total = scr.toList.length ∧
      results.details.length = scr.toList.length := by
  rw [processBatch_eq_body s3 bucket duration h1 h2,
    processBatchBody_valid s3 bucket duration hscr h0 h100 hinsp hne,
    processValidBatch_spec s3 bucket duration body scr.toList insp hnn]
  refine ⟨{ successful := (runItemsSpec s3 bucket (folderPathOf body insp)
              0 scr.toList).countP isSuccessPiece,
            failed := (runItemsSpec s3 bucket (folderPathOf body insp)
              0 scr.toList).countP (fun pr => !isSuccessPiece pr),
            total := scr.toList.length,
            details := (runItemsSpec s3 bucket (folderPathOf body insp)
              0 scr.toList).map Prod.fst,
            userFolder := folderPathOf body insp,
            mobileNumber := sanitizeMobileNumber (getField body "mobileNumber"),
            inspectionUuid := insp,
            prdpUuid := (match sanitizeUuid (getField body "prdpUuid") with
              | some p => if p = "" then none else some p
              | none => none),
            journeyType := if jsTruthy (getField body "journeyType") then
              getField body "journeyType" else .null },
          rfl, ?_, rfl, ?_⟩
  · exact (countP_success_split _).trans
      (runItemsSpec_length s3 bucket (folderPathOf body insp) scr.toList 0)
  · simp [runItemsSpec_length]

/-- Witness for C2 at a one-item batch that succeeds. -/
theorem claim2_witness :
    ∃ results : BatchResults,
      (processBatch (fun _ _ => none) "b" 0
        (.obj (.ofList [("inspectionUuid", .str "w2"),
          ("screenshots", .arr (.ofList [.obj (.ofList
            [("filename", .str "a"), ("image", .str "////")])]))]))).response =
        .reportResp (if results.successful > 0 then 200 else 500)
          ("Batch upload: " ++ toString results.successful ++ "/"
            ++ toString results.total ++ " successful")
          "b" results 0
          (avgTimeString 0 (JSList.ofList [JSValue.obj (.ofList
            [("filename", .str "a"), ("image", .str "////")])]).toList.length) ∧
      results.successful + results.failed = results.total ∧
      results.total = (JSList.ofList [JSValue.obj (.ofList
        [("filename", .str "a"), ("image", .str "////")])]).toList.length ∧
      results.details.length = (JSList.ofList [JSValue.obj (.ofList
        [("filename", .str "a"), ("image", .str "////")])]).toList.length :=
  claim2_status_code_and_report (fun _ _ => none) "b" 0 _ _ "w2"
    (by decide) (by decide) rfl (by decide) (by decide) (by decide) (by decide)
    (by decide)

/-- The envelope-rejection condition exactly as C3 words it: `screenshots`
missing/not an array, empty, more than 100 elements, or an inspection UUID
sanitizing to null or the empty string. -/
def badEnvelope (body : JSValue) : Prop :=
  (∀ scr : JSList, getField body "screenshots" ≠ .arr scr) ∨
  (∃ scr : JSList, getField body "screenshots" = .arr scr ∧
    (scr.toList.length = 0 ∨ scr.toList.length > 100)) ∨
  sanitizeUuid (getField body "inspectionUuid") = none ∨
  sanitizeUuid (getField body "inspectionUuid") = some ""

/-- C3: every envelope failure is answered 400 with an `{error}` body, with
no per-item processing and no storage put calls. -/
theorem claim3_envelope_rejection (s3 : Nat → PutCall → Option String)
    (bucket : String) (duration : Nat) (body : JSValue)
    (h1 : body ≠ .null) (h2 : body ≠ .undefined) (hbad : badEnvelope body) :
    ∃ msg, processBatch s3 bucket duration body =
      { response := .errorResp 400 msg none, putCalls := [] } := by
  rw [processBatch_eq_body s3 bucket duration h1 h2]
  unfold processBatchBody
  cases hscr : getField body "screenshots" with
  | arr scr =>
    dsimp only
    by_cases hl0 : scr.toList.length = 0
    · exact ⟨_, by rw [if_pos hl0]⟩
    · rw [if_neg hl0]
      by_cases hl100 : scr.toList.length > 100
      · exact ⟨_, by rw [if_pos hl100]⟩
      · rw [if_neg hl100]
        rcases hbad with hb | hb | hb | hb
        · exact absurd hscr (hb scr)
        · rcases hb with ⟨scr2, hscr2, hbad2⟩
          rw [hscr] at hscr2
          injection hscr2 with h
          subst h
          rcases hbad2 with h | h
          · exact absurd h hl0
          · exact absurd h hl100
        · rw [hb]
          exact ⟨"Inspection UUID is required", rfl⟩
        · rw [hb]
          dsimp only
          rw [if_pos rfl]
          exact ⟨"Inspection UUID is required", rfl⟩
  | null => exact ⟨"Missing or invalid screenshots array", rfl⟩
  | undefined => exact ⟨"Missing or invalid screenshots array", rfl⟩
  | boolean b => exact ⟨"Missing or invalid screenshots array", rfl⟩
  | number n => exact ⟨"Missing or invalid screenshots array", rfl⟩
  | str s => exact ⟨"Missing or invalid screenshots array", rfl⟩
  | obj fs => exact ⟨"Missing or invalid screenshots array", rfl⟩

/-- Witness for C3: a body with no `screenshots` field at all. -/
theorem claim3_witness :
    ∃ msg, processBatch (fun _ _ => none) "b" 3 (.obj .nil) =
      { response := .errorResp 400 msg none, putCalls := [] } :=
  claim3_envelope_rejection (fun _ _ => none) "b" 3 (.obj .nil)
    (by decide) (by decide) (Or.inl (fun scr h => JSValue.noConfusion h))

/-- C4 counterexample: `prdpUuid = "!!!"` sanitizes to `""` — non-null — with
`journeyType = PRE_INSPECTION_PRDP`, so the claim requires the third path
segment to be that sanitized PRDP UUID (giving `"unknown/abc/"`), but the
code's truthiness test also excludes the empty string and falls back to the
inspection UUID (`"unknown/abc/abc"`). -/
theorem claim4_counterexample :
    sanitizeUuid (.str "!!!") = some "" ∧
    (reportOf (processBatch (fun _ _ => none) "bkt" 0
      (.obj (.ofList [("inspectionUuid", .str "abc"),
        ("journeyType", .str "PRE_INSPECTION_PRDP"), ("prdpUuid", .str "!!!"),
        ("screenshots", .arr (.ofList [.obj (.ofList
          [("filename", .str "f"), ("image", .str "////")])]))]))).response).map
      BatchResults.userFolder = some "unknown/abc/abc" ∧
    ("unknown/abc/abc" : String) ≠ "unknown/abc/" := by decide

/-- C4 (amended): for every batch passing envelope validation (with loop
elements non-null so the report exists), the folder path is
`{mobileToken}/{inspectionToken}/{childToken}` where the child token is the
sanitized PRDP UUID iff `journeyType == "PRE_INSPECTION_PRDP"` and that
token is non-null *and non-empty*, and the sanitized inspection UUID
otherwise; the path is computed once and prefixes every put key. -/
theorem claim4_folder_path (s3 : Nat → PutCall → Option String)
    (bucket : String) (duration : Nat) (body : JSValue) (scr : JSList)
    (insp : String)
    (h1 : body ≠ .null) (h2 : body ≠ .undefined)
    (hscr : getField body "screenshots" = .arr scr)
    (h0 : scr.toList.length ≠ 0) (h100 : scr.toList.length ≤ 100)
    (hinsp : sanitizeUuid (getField body "inspectionUuid") = some insp)
    (hne : insp ≠ "")
    (hnn : ∀ x ∈ scr.toList, x ≠ .null ∧ x ≠ .undefined) :
    ∃ results : BatchResults,
      reportOf (processBatch s3 bucket duration body).response = some results ∧
      results.userFolder = sanitizeMobileNumber (getField body "mobileNumber")
        ++ "/" ++ insp ++ "/"
        ++ childFolderOf (getField body "journeyType")
            (sanitizeUuid (getField body "prdpUuid")) insp ∧
      (∀ p, getField body "journeyType" = .str "PRE_INSPECTION_PRDP" →
        sanitizeUuid (getField body "prdpUuid") = some p → p ≠ "" →
        childFolderOf (getField body "journeyType")
          (sanitizeUuid (getField body "prdpUuid")) insp = p) ∧
      (¬(getField body "journeyType" = .str "PRE_INSPECTION_PRDP" ∧
          ∃ p, sanitizeUuid (getField body "prdpUuid") = some p ∧ p ≠ "") →
        childFolderOf (getField body "journeyType")
          (sanitizeUuid (getField body "prdpUuid")) insp = insp) ∧
      (∀ put ∈ (processBatch s3 bucket duration body).putCalls,
        ∃ rest, put.key = results.userFolder ++ "/" ++ rest) := by
  rw [processBatch_eq_body s3 bucket duration h1 h2,
    processBatchBody_valid s3 bucket duration hscr h0 h100 hinsp hne,
    processValidBatch_spec s3 bucket duration body scr.toList insp hnn]
  refine ⟨_, rfl, rfl, ?_, ?_, ?_⟩
  · intro p hjt hp hp0
    rw [childFolderOf.eq_def, hp, hjt]
    simp [isPrdpJourney, hp0]
  · intro h
    rw [childFolderOf.eq_def]
    cases hsp : sanitizeUuid (getField body "prdpUuid") with
    | none => rfl
    | some p =>
      cases hj : isPrdpJourney (getField body "journeyType") with
      | false => simp [hj]
      | true =>
        by_cases hp0 : p = ""
        · simp [hp0]
        · exact absurd ⟨(isPrdpJourney_iff _).mp hj, p, hsp, hp0⟩ h
  · intro put hput
    exact runItemsSpec_put_keys s3 bucket (folderPathOf body insp)
      scr.toList 0 put hput

/-- Witness for C4: a PRDP journey with a non-empty PRDP UUID. -/
theorem claim4_witness :
    ∃ results : BatchResults,
      reportOf (processBatch (fun _ _ => none) "bkt" 0
        (.obj (.ofList [("inspectionUuid", .str "abc"),
          ("journeyType", .str "PRE_INSPECTION_PRDP"), ("prdpUuid", .str "def"),
          ("screenshots", .arr (.ofList [.obj (.ofList
            [("filename", .str "f"), ("image", .str "////")])]))]))).response
        = some results ∧
      results.userFolder = sanitizeMobileNumber (getField (.obj (.ofList
          [("inspectionUuid", .str "abc"),
            ("journeyType", .str "PRE_INSPECTION_PRDP"), ("prdpUuid", .str "def"),
            ("screenshots", .arr (.ofList [.obj (.ofList
              [("filename", .str "f"), ("image", .str "////")])]))]))
          "mobileNumber")
        ++ "/" ++ "abc" ++ "/"
        ++ childFolderOf (getField (.obj (.ofList
            [("inspectionUuid", .str "abc"),
              ("journeyType", .str "PRE_INSPECTION_PRDP"), ("prdpUuid", .str "def"),
              ("screenshots", .arr (.ofList [.obj (.ofList
                [("filename", .str "f"), ("image", .str "////")])]))]))
            "journeyType")
            (sanitizeUuid (getField (.obj (.ofList
              [("inspectionUuid", .str "abc"),
                ("journeyType", .str "PRE_INSPECTION_PRDP"), ("prdpUuid", .str "def"),
                ("screenshots", .arr (.ofList [.obj (.ofList
                  [("filename", .str "f"), ("image", .str "////")])]))]))
              "prdpUuid")) "abc" ∧
      (∀ p, getField (.obj (.ofList
          [("inspectionUuid", .str "abc"),
            ("journeyType", .str "PRE_INSPECTION_PRDP"), ("prdpUuid", .str "def"),
            ("screenshots", .arr (.ofList [.obj (.ofList
              [("filename", .str "f"), ("image", .str "////")])]))]))
          "journeyType" = .str "PRE_INSPECTION_PRDP" →
        sanitizeUuid (getField (.obj (.ofList
          [("inspectionUuid", .str "abc"),
            ("journeyType", .str "PRE_INSPECTION_PRDP"), ("prdpUuid", .str "def"),
            ("screenshots", .arr (.ofList [.obj (.ofList
              [("filename", .str "f"), ("image", .str "////")])]))]))
          "prdpUuid") = some p → p ≠ "" →
        childFolderOf (getField (.obj (.ofList
          [("inspectionUuid", .str "abc"),
            ("journeyType", .str "PRE_INSPECTION_PRDP"), ("prdpUuid", .str "def"),
            ("screenshots", .arr (.ofList [.obj (.ofList
              [("filename", .str "f"), ("image", .str "////")])]))]))
          "journeyType")
          (sanitizeUuid (getField (.obj (.ofList
            [("inspectionUuid", .str "abc"),
              ("journeyType", .str "PRE_INSPECTION_PRDP"), ("prdpUuid", .str "def"),
              ("screenshots", .arr (.ofList [.obj (.ofList
                [("filename", .str "f"), ("image", .str "////")])]))]))
            "prdpUuid")) "abc" = p) ∧
      (¬(getField (.obj (.ofList
          [("inspectionUuid", .str "abc"),
            ("journeyType", .str "PRE_INSPECTION_PRDP"), ("prdpUuid", .str "def"),
            ("screenshots", .arr (.ofList [.obj (.ofList
              [("filename", .str "f"), ("image", .str "////")])]))]))
          "journeyType" = .str "PRE_INSPECTION_PRDP" ∧
          ∃ p, sanitizeUuid (getField (.obj (.ofList
            [("inspectionUuid", .str "abc"),
              ("journeyType", .str "PRE_INSPECTION_PRDP"), ("prdpUuid", .str "def"),
              ("screenshots", .arr (.ofList [.obj (.ofList
                [("filename", .str "f"), ("image", .str "////")])]))]))
            "prdpUuid") = some p ∧ p ≠ "") →
        childFolderOf (getField (.obj (.ofList
          [("inspectionUuid", .str "abc"),
            ("journeyType", .str "PRE_INSPECTION_PRDP"), ("prdpUuid", .str "def"),
            ("screenshots", .arr (.ofList [.obj (.ofList
              [("filename", .str "f"), ("image", .str "////")])]))]))
          "journeyType")
          (sanitizeUuid (getField (.obj (.ofList
            [("inspectionUuid", .str "abc"),
              ("journeyType", .str "PRE_INSPECTION_PRDP"), ("prdpUuid", .str "def"),
              ("screenshots", .arr (.ofList [.obj (.ofList
                [("filename", .str "f"), ("image", .str "////")])]))]))
            "prdpUuid")) "abc" = "abc") ∧
      (∀ put ∈ (processBatch (fun _ _ => none) "bkt" 0
          (.obj (.ofList [("inspectionUuid", .str "abc"),
            ("journeyType", .str "PRE_INSPECTION_PRDP"), ("prdpUuid", .str "def"),
            ("screenshots", .arr (.ofList [.obj (.ofList
              [("filename", .str "f"), ("image", .str "////")])]))]))).putCalls,
        ∃ rest, put.key = results.userFolder ++ "/" ++ rest) :=
  claim4_folder_path (fun _ _ => none) "bkt" 0 _ _ "abc"
    (by decide) (by decide) rfl (by decide) (by decide) (by decide) (by decide)
    (by decide)

/-- C5 counterexample: item 1 has an image decoding to the empty payload, so
the claim requires it to be marked failed with its own outcome; but the
`null` at index 0 aborts the whole batch first, so no outcome exists for it
and 500 `{error}` is returned instead. -/
theorem claim5_counterexample :
    decodeBase64 "!!!" = [] ∧
    processBatch (fun _ _ => none) "bkt" 2
      (.obj (.ofList [("inspectionUuid", .str "ins"),
        ("screenshots", .arr (.ofList [.null,
          .obj (.ofList [("filename", .str "g"), ("image", .str "!!!")])]))])) =
      { response := .errorResp 500 "Batch upload failed"
          (some "Cannot destructure property 'filename' of 'screenshot' as it is null."),
        putCalls := [] } := by decide

/-- C5 (amended): within a valid envelope *all of whose elements are
non-null and non-undefined*, an item whose image decodes to the empty
payload is marked failed with the message
`"Invalid base64 data: Empty image data"`, counts towards `failed`,
contributes no put call, and every other item's outcome is exactly the
function of its own element alone. -/
theorem claim5_empty_decode_isolation (s3 : Nat → PutCall → Option String)
    (bucket : String) (duration : Nat) (body : JSValue) (scr : JSList)
    (insp : String) (k : Nat) (x : JSValue) (f img : String)
    (h1 : body ≠ .null) (h2 : body ≠ .undefined)
    (hscr : getField body "screenshots" = .arr scr)
    (h0 : scr.toList.length ≠ 0) (h100 : scr.toList.length ≤ 100)
    (hinsp : sanitizeUuid (getField body "inspectionUuid") = some insp)
    (hne : insp ≠ "")
    (hnn : ∀ y ∈ scr.toList, y ≠ .null ∧ y ≠ .undefined)
    (hk : scr.toList.get? k = some x)
    (hobj : jsTypeof x = "object") (hxn : x ≠ .null)
    (hf : getField x "filename" = .str f) (hf0 : f ≠ "")
    (hi : getField x "image" = .str img) (him0 : img ≠ "")
    (hdec : decodeBase64 img = []) :
    ∃ results : BatchResults,
      reportOf (processBatch s3 bucket duration body).response = some results ∧
      results.details.get? k =
        some ({ index := k, filename := .str f, status := "failed",
                error := some "Invalid base64 data: Empty image data" } : Outcome) ∧
      1 ≤ results.failed ∧
      (runItemsSpec s3 bucket (folderPathOf body insp) 0 scr.toList).get? k =
        some ({ index := k, filename := .str f, status := "failed",
                error := some "Invalid base64 data: Empty image data" }, []) ∧
      (∀ j y, scr.toList.get? j = some y →
        results.details.get? j
          = some (processItemBody s3 bucket (folderPathOf body insp) j y).1) := by
  have hbody := processItemBody_empty_decode s3 bucket (folderPathOf body insp) k
    hobj hxn hf hf0 hi him0 hdec
  have hpiece := runItemsSpec_get? s3 bucket (folderPathOf body insp)
    scr.toList 0 k x hk
  rw [Nat.zero_add, hbody] at hpiece
  rw [processBatch_eq_body s3 bucket duration h1 h2,
    processBatchBody_valid s3 bucket duration hscr h0 h100 hinsp hne,
    processValidBatch_spec s3 bucket duration body scr.toList insp hnn]
  refine ⟨_, rfl, ?_, ?_, hpiece, ?_⟩
  · show ((runItemsSpec s3 bucket (folderPathOf body insp) 0 scr.toList).map
      Prod.fst).get? k = _
    rw [List.get?_map, hpiece]
    rfl
  · show 0 < (runItemsSpec s3 bucket (folderPathOf body insp) 0 scr.toList).countP
      (fun pr => !isSuccessPiece pr)
    rw [List.countP_pos]
    exact ⟨_, List.get?_mem hpiece, by simp [isSuccessPiece]⟩
  · intro j y hy
    have := runItemsSpec_get? s3 bucket (folderPathOf body insp) scr.toList 0 j y hy
    rw [Nat.zero_add] at this
    show ((runItemsSpec s3 bucket (folderPathOf body insp) 0 scr.toList).map
      Prod.fst).get? j = _
    rw [List.get?_map, this]
    rfl

/-- Witness for C5: a two-item batch whose first item is valid and whose
second has an image decoding to the empty payload. -/
theorem claim5_witness :
    ∃ results : BatchResults,
      reportOf (processBatch (fun _ _ => none) "b" 0
        (.obj (.ofList [("inspectionUuid", .str "w5"),
          ("screenshots", .arr (.ofList [.obj (.ofList
              [("filename", .str "a"), ("image", .str "////")]),
            .obj (.ofList [("filename", .str "g"), ("image", .str "!!!")])]))]))).response
        = some results ∧
      results.details.get? 1 =
        some ({ index := 1, filename := .str "g", status := "failed",
                error := some "Invalid base64 data: Empty image data" } : Outcome) ∧
      1 ≤ results.failed ∧
      (runItemsSpec (fun _ _ => none) "b"
        (folderPathOf (.obj (.ofList [("inspectionUuid", .str "w5"),
          ("screenshots", .arr (.ofList [.obj (.ofList
              [("filename", .str "a"), ("image", .str "////")]),
            .obj (.ofList [("filename", .str "g"), ("image", .str "!!!")])]))])) "w5")
        0 (JSList.ofList [.obj (.ofList
              [("filename", .str "a"), ("image", .str "////")]),
            .obj (.ofList [("filename", .str "g"), ("image", .str "!!!")])]).toList).get? 1
        = some ({ index := 1, filename := .str "g", status := "failed",
                  error := some "Invalid base64 data: Empty image data" }, []) ∧
      (∀ j y, (JSList.ofList [JSValue.obj (.ofList
              [("filename", .str "a"), ("image", .str "////")]),
            .obj (.ofList [("filename", .str "g"), ("image", .str "!!!")])]).toList.get? j
          = some y →
        results.details.get? j
          = some (processItemBody (fun _ _ => none) "b"
              (folderPathOf (.obj (.ofList [("inspectionUuid", .str "w5"),
                ("screenshots", .arr (.ofList [.obj (.ofList
                    [("filename", .str "a"), ("image", .str "////")]),
                  .obj (.ofList [("filename", .str "g"), ("image", .str "!!!")])]))]))
                "w5") j y).1) :=
  claim5_empty_decode_isolation (fun _ _ => none) "b" 0 _ _ "w5" 1
    (.obj (.ofList [("filename", .str "g"), ("image", .str "!!!")])) "g" "!!!"
    (by decide) (by decide) rfl (by decide) (by decide) (by decide) (by decide)
    (by decide) (by decide) rfl (by decide) rfl (by decide) rfl (by decide)
    (by decide)

/-- C6: `validateScreenshot` checks its rules in order with first failure
winning: a value that is not a non-null object (in JS terms, where
`typeof null === "object"` but `null` itself is excluded and arrays count as
objects) fails with the "is not an object" message; otherwise a `filename`
that is not a non-empty string fails with the "missing filename" message;
otherwise an `image` that is not a non-empty string fails with the "missing
image data" message; otherwise the item is valid — in particular no format
or size validation of `image` beyond non-emptiness. -/
theorem claim6_validator_rules (item : JSValue) (i : Nat) :
    (¬(jsTypeof item = "object" ∧ item ≠ .null) →
      validateScreenshot item i =
        .invalid ("Screenshot at index " ++ toString i ++ " is not an object")) ∧
    ((jsTypeof item = "object" ∧ item ≠ .null) →
      ¬(∃ s, getField item "filename" = .str s ∧ s ≠ "") →
      validateScreenshot item i =
        .invalid ("Screenshot at index " ++ toString i ++ " missing filename")) ∧
    ((jsTypeof item = "object" ∧ item ≠ .null) →
      (∃ s, getField item "filename" = .str s ∧ s ≠ "") →
      ¬(∃ s, getField item "image" = .str s ∧ s ≠ "") →
      validateScreenshot item i =
        .invalid ("Screenshot at index " ++ toString i ++ " missing image data")) ∧
    ((jsTypeof item = "object" ∧ item ≠ .null) →
      (∃ s, getField item "filename" = .str s ∧ s ≠ "") →
      (∃ s, getField item "image" = .str s ∧ s ≠ "") →
      validateScreenshot item i = .ok) := by
  refine ⟨?_, ?_, ?_, ?_⟩
  · intro h
    have hb : isNonNullObject item = false :=
      Bool.eq_false_iff.mpr (fun ht => h ((isNonNullObject_iff item).mp ht))
    simp [validateScreenshot, hb]
  · intro hobj hnf
    have hb1 : isNonNullObject item = true := (isNonNullObject_iff item).mpr hobj
    have hb2 : isNonEmptyStr (getField item "filename") = false :=
      Bool.eq_false_iff.mpr (fun ht => hnf ((isNonEmptyStr_iff _).mp ht))
    simp [validateScreenshot, hb1, hb2]
  · intro hobj hf hni
    have hb1 : isNonNullObject item = true := (isNonNullObject_iff item).mpr hobj
    have hb2 : isNonEmptyStr (getField item "filename") = true :=
      (isNonEmptyStr_iff _).mpr hf
    have hb3 : isNonEmptyStr (getField item "image") = false :=
      Bool.eq_false_iff.mpr (fun ht => hni ((isNonEmptyStr_iff _).mp ht))
    simp [validateScreenshot, hb1, hb2, hb3]
  · intro hobj hf hi
    have hb1 : isNonNullObject item = true := (isNonNullObject_iff item).mpr hobj
    have hb2 : isNonEmptyStr (getField item "filename") = true :=
      (isNonEmptyStr_iff _).mpr hf
    have hb3 : isNonEmptyStr (getField item "image") = true :=
      (isNonEmptyStr_iff _).mpr hi
    simp [validateScreenshot, hb1, hb2, hb3]

/-- Witness for C6: all four branches at concrete inputs. -/
theorem claim6_witness :
    validateScreenshot (.number 5) 2 =
      .invalid "Screenshot at index 2 is not an object" ∧
    validateScreenshot (.arr .nil) 1 =
      .invalid "Screenshot at index 1 missing filename" ∧
    validateScreenshot (.obj (.ofList [("filename", .str "a")])) 0 =
      .invalid "Screenshot at index 0 missing image data" ∧
    validateScreenshot (.obj (.ofList [("filename", .str "a"), ("image", .str "b")])) 0 =
      .ok :=
  ⟨(claim6_validator_rules (.number 5) 2).1 (by simp [jsTypeof]),
   (claim6_validator_rules (.arr .nil) 1).2.1 (by exact ⟨rfl, by decide⟩)
     (by rintro ⟨s, hs, _⟩; exact JSValue.noConfusion hs),
   (claim6_validator_rules (.obj (.ofList [("filename", .str "a")])) 0).2.2.1
     (by exact ⟨rfl, by decide⟩) ⟨"a", rfl, by decide⟩
     (by rintro ⟨s, hs, _⟩; exact JSValue.noConfusion hs),
   (claim6_validator_rules (.obj (.ofList [("filename", .str "a"), ("image", .str "b")])) 0).2.2.2
     (by exact ⟨rfl, by decide⟩) ⟨"a", rfl, by decide⟩ ⟨"b", rfl, by decide⟩⟩

/-- The content-type table exactly as the claim states it: the fixed lookup
applied to the extension as-is, with `image/{extension}` fallback. -/
def specContentType (extension : String) : String :=
  if extension = "jpg" ∨ extension = "jpeg" then "image/jpeg"
  else if extension = "png" then "image/png"
  else if extension = "gif" then "image/gif"
  else if extension = "webp" then "image/webp"
  else "image/" ++ extension

theorem contentTypesLookup_getD (e : String) :
    (contentTypesLookup e).getD ("image/" ++ e) = specContentType e := by
  unfold contentTypesLookup specContentType
  split_ifs <;> simp_all

/-- C7 counterexample: the claim's table/fallback applies to the extension
as written, so `"PNG"` (not a table key) would give `"image/PNG"`; the code
lowercases first and yields `"image/png"` instead. -/
theorem claim7_counterexample :
    getImageContentType (.str "PNG") = .ok "image/png" ∧
      specContentType "PNG" = "image/PNG" ∧ ("image/png" : String) ≠ "image/PNG" :=
  ⟨rfl, rfl, by decide⟩

/-- C7 (amended): for every non-empty extension string, the content type is
the claim's fixed table with `image/{extension}` fallback applied to the
*lowercased* extension (the code also defaults an empty string to `"jpg"`). -/
theorem claim7_content_type (ext : String) (h : ext ≠ "") :
    getImageContentType (.str ext) = .ok (specContentType (jsToLowerCase ext)) := by
  rw [getImageContentType_str h, contentTypesLookup_getD]

/-- Witness for C7: `"png"` maps through the table, `"tiff"` through the
fallback. -/
theorem claim7_witness :
    getImageContentType (.str "png") = .ok "image/png" ∧
      getImageContentType (.str "tiff") = .ok "image/tiff" :=
  ⟨(claim7_content_type "png" (by decide)).trans rfl,
   (claim7_content_type "tiff" (by decide)).trans rfl⟩

/-- C8: `sanitizeMobileNumber` always returns a non-empty string over the
alphabet `[a-zA-Z0-9+_]`, returns `"unknown"` for absent/non-string input,
and maps the spec's example to `"+1_234_567_890"`. -/
theorem claim8_sanitize_mobile :
    (∀ v : JSValue,
      sanitizeMobileNumber v ≠ "" ∧
      (∀ c ∈ (sanitizeMobileNumber v).data, isMobileOut c = true) ∧
      ((jsTruthy v = false ∨ jsTypeof v ≠ "string") →
        sanitizeMobileNumber v = "unknown") ∧
      (∀ s, v = .str s → sanitizeMobileCore s.data = [] →
        sanitizeMobileNumber v = "unknown")) ∧
    sanitizeMobileNumber (.str "+1 (234) 567-890!") = "+1_234_567_890" :=
  ⟨fun v => ⟨sanitizeMobileNumber_ne_empty v, sanitizeMobileNumber_chars v,
    sanitizeMobileNumber_of_not_string v,
    fun _ hv hcore => hv ▸ sanitizeMobileNumber_of_empty_core hcore⟩, by decide⟩

/-- Witness for C8 at `null` (an absent `mobileNumber`). -/
theorem claim8_witness :
    sanitizeMobileNumber .null ≠ "" ∧ sanitizeMobileNumber .null = "unknown" ∧
      sanitizeMobileNumber (.str "!!!") = "unknown" :=
  ⟨(claim8_sanitize_mobile.1 .null).1,
   (claim8_sanitize_mobile.1 .null).2.2.1 (Or.inl rfl),
   (claim8_sanitize_mobile.1 (.str "!!!")).2.2.2 "!!!" rfl (by decide)⟩

/-- C9: `sanitizeMobileNumber` is idempotent on every string. -/
theorem claim9_sanitize_idempotent (s : String) :
    sanitizeMobileNumber (.str (sanitizeMobileNumber (.str s)))
      = sanitizeMobileNumber (.str s) :=
  sanitizeMobileNumber_idem s

/-- C10: an item reaching the upload step gets the key
`{folderPath}/{filename}.{extension}` with the filename and extension
embedded verbatim (extension defaulting to the literal `"jpg"` when the
field is absent); a filename containing `/` or `..` therefore yields extra
path segments beyond the three-segment folder path (second conjunct: the
folder path `"m/i/c"` has two separators, the key built from filename
`"a/../b"` has five). -/
theorem claim10_item_key :
    (∀ (s3 : Nat → PutCall → Option String) (bucket folderPath : String) (i : Nat)
      (x : JSValue) (f img : String),
      jsTypeof x = "object" → x ≠ .null →
      getField x "filename" = .str f → f ≠ "" →
      getField x "image" = .str img → img ≠ "" → decodeBase64 img ≠ [] →
      (∀ ext : String, getField x "extension" = .str ext → ext ≠ "" →
        ∃ ct, (processItemBody s3 bucket folderPath i x).2 =
          [{ bucket := bucket, key := folderPath ++ "/" ++ f ++ "." ++ ext,
             body := decodeBase64 img, contentType := ct }]) ∧
      (getField x "extension" = .undefined →
        ∃ ct, (processItemBody s3 bucket folderPath i x).2 =
          [{ bucket := bucket, key := folderPath ++ "/" ++ f ++ "." ++ "jpg",
             body := decodeBase64 img, contentType := ct }])) ∧
    (("m/i/c" : String).data.count '/' = 2 ∧
      ("m/i/c" ++ "/" ++ "a/../b" ++ "." ++ "jpg" : String).data.count '/' = 5) := by
  constructor
  · intro s3 bucket folderPath i x f img hobj hxn hf hf0 hi him0 hdec
    constructor
    · intro ext hext hext0
      exact ⟨_, processItemBody_upload s3 bucket folderPath i hobj hxn hf hf0
        hi him0 hdec hext hext0⟩
    · intro hext
      exact ⟨_, processItemBody_upload_default s3 bucket folderPath i hobj hxn hf hf0
        hi him0 hdec hext⟩
  · exact ⟨by decide, by decide⟩

/-- Witness for C10: a filename containing `/` and `..` is embedded verbatim. -/
theorem claim10_witness :
    ∃ ct, (processItemBody (fun _ _ => none) "bkt" "m/i/c" 0
      (.obj (.ofList [("filename", .str "a/../b"), ("image", .str "////")]))).2 =
      [{ bucket := "bkt", key := "m/i/c" ++ "/" ++ "a/../b" ++ "." ++ "jpg",
         body := decodeBase64 "////", contentType := ct }] :=
  (claim10_item_key.1 (fun _ _ => none) "bkt" "m/i/c" 0
    (.obj (.ofList [("filename", .str "a/../b"), ("image", .str "////")]))
    "a/../b" "////" rfl (by decide) rfl (by decide) rfl (by decide)
    (by decide)).2 rfl

end UploadBackend
